import Mathlib

/-!
Verification development for the pyeo raster alignment, compositing and
chunked-classification engine (src/pyeo/core.py).

Geographic coordinates are embedded as exact rationals; pixel buffers are
total functions from (band, row, col) indices to integer pixel values.
Python's int() truncation and numpy's floor are modelled explicitly.
-/

namespace Pyeo

/-- A rectangle in geographic coordinates, as produced by OGR GetEnvelope:
x range [xMin, xMax], y range [yMin, yMax].  The engine only ever consumes
polygons through their envelope, so rectangles are a faithful carrier for
the polygon values flowing through the functions modelled here. -/
structure Rect where
  xMin : ℚ
  xMax : ℚ
  yMin : ℚ
  yMax : ℚ
deriving DecidableEq

/-- A GDAL raster handle: the affine geotransform entries gt0 (origin x),
gt1 (pixel width), gt3 (origin y, the top edge), gt5 (pixel height, stored
negative for north-up rasters), the pixel grid size, the band count, and
the pixel buffer indexed as (band, row, col) like GetVirtualMemArray. -/
structure Raster where
  gt0 : ℚ
  gt1 : ℚ
  gt3 : ℚ
  gt5 : ℚ
  xsize : ℕ
  ysize : ℕ
  bands : ℕ
  buf : ℕ → ℕ → ℕ → ℤ

/-- A pixel-index window (x_min, x_max, y_min, y_max) as returned by
pixel_bounds_from_polygon. -/
structure Window where
  xMin : ℤ
  xMax : ℤ
  yMin : ℤ
  yMax : ℤ
deriving DecidableEq

/-- Error taxonomy of the modelled core: each constructor corresponds to a
distinct exception raised in core.py. -/
inductive CoreError where
  | stackImages : CoreError
  | invalidGeometryMode : CoreError
  | invalidCombinationFunc : CoreError
  | indexError : CoreError
deriving DecidableEq

/-- get_raster_bounds: the bounding rectangle of a raster computed from its
geotransform; width = gt1 * xsize, height = -gt5 * ysize, bottom edge =
top - height = gt3 + gt5 * ysize. -/
def get_raster_bounds (r : Raster) : Rect :=
  { xMin := r.gt0
    xMax := r.gt0 + r.gt1 * r.xsize
    yMin := r.gt3 + r.gt5 * r.ysize
    yMax := r.gt3 }

/-- OGR Intersection of two axis-aligned rectangles, described by its
envelope (valid whenever the intersection is non-empty, which the callers
modelled here require). -/
def rectIntersection (a b : Rect) : Rect :=
  { xMin := max a.xMin b.xMin
    xMax := min a.xMax b.xMax
    yMin := max a.yMin b.yMin
    yMax := min a.yMax b.yMax }

/-- OGR Union of two axis-aligned rectangles, described by its envelope,
which is all the downstream code (create_new_image_from_polygon,
pixel_bounds_from_polygon) ever reads from it. -/
def rectUnion (a b : Rect) : Rect :=
  { xMin := min a.xMin b.xMin
    xMax := max a.xMax b.xMax
    yMin := min a.yMin b.yMin
    yMax := max a.yMax b.yMax }

/-- multiple_intersection: left fold of Intersection over the list, starting
from its head.  The source indexes polygons[0], so every caller modelled
here passes a non-empty list; the empty case is an unreachable default. -/
def multiple_intersection (polys : List Rect) : Rect :=
  match polys with
  | [] => Rect.mk 0 0 0 0
  | p :: rest => rest.foldl rectIntersection p

/-- multiple_union: left fold of Union over the list, starting from its
head, as in the source (Simplify(0) does not change a rectangle). -/
def multiple_union (polys : List Rect) : Rect :=
  match polys with
  | [] => Rect.mk 0 0 0 0
  | p :: rest => rest.foldl rectUnion p

/-- get_combined_polygon: dispatches on geometry_mode, raising on an
unrecognized mode. -/
def get_combined_polygon (rasters : List Raster) (geometry_mode : String) :
    Except CoreError Rect :=
  if geometry_mode = "intersect" then
    .ok (multiple_intersection (rasters.map get_raster_bounds))
  else if geometry_mode = "union" then
    .ok (multiple_union (rasters.map get_raster_bounds))
  else .error .invalidGeometryMode

/-- point_to_pixel_coordinates: inverts the affine geotransform and floors,
x_pixel = floor((x_geo - gt0) / gt1), y_pixel = floor((y_geo - gt3) / gt5)
(gt5 is negative). int(np.floor(q)) is exactly the mathematical floor. -/
def point_to_pixel_coordinates (r : Raster) (x_geo y_geo : ℚ) : ℤ × ℤ :=
  (⌊(x_geo - r.gt0) / r.gt1⌋, ⌊(y_geo - r.gt3) / r.gt5⌋)

/-- Modelled from the spec: the repository has no pixel_to_geo function in
src (only the inverse direction point_to_pixel_coordinates exists); spec
section 4.1 describes pixel-to-geo as multiplying the pixel index by the
pixel width and height and adding the origin. -/
def pixel_to_geo (r : Raster) (col row : ℤ) : ℚ × ℚ :=
  (r.gt0 + col * r.gt1, r.gt3 + row * r.gt5)

/-- pixel_bounds_from_polygon: intersects the polygon with the raster's own
bounds, converts the envelope corners to pixel coordinates, and swaps each
axis pair if inverted (the source swaps when min >= max). -/
def pixel_bounds_from_polygon (r : Raster) (poly : Rect) : Window :=
  let inter := rectIntersection (get_raster_bounds r) poly
  let p1 := point_to_pixel_coordinates r inter.xMin inter.yMin
  let p2 := point_to_pixel_coordinates r inter.xMax inter.yMax
  let xpair := if p1.1 ≥ p2.1 then (p2.1, p1.1) else (p1.1, p2.1)
  let ypair := if p1.2 ≥ p2.2 then (p2.2, p1.2) else (p1.2, p2.2)
  { xMin := xpair.1, xMax := xpair.2, yMin := ypair.1, yMax := ypair.2 }

/-- Python's int() applied to an exact value: truncation toward zero. -/
def pyInt (q : ℚ) : ℤ := if 0 ≤ q then ⌊q⌋ else ⌈q⌉

/-- create_new_image_from_polygon: a new raster placed at the envelope's
top-left corner, sized envelope extent divided by resolution and truncated
by int(), with gt5 = -y_res; driver.Create zero-fills the buffer. -/
def create_new_image_from_polygon (poly : Rect) (x_res y_res : ℚ) (bands : ℕ) :
    Raster :=
  { gt0 := poly.xMin
    gt1 := x_res
    gt3 := poly.yMax
    gt5 := -y_res
    xsize := (pyInt ((poly.xMax - poly.xMin) / x_res)).toNat
    ysize := (pyInt ((poly.yMax - poly.yMin) / y_res)).toNat
    bands := bands
    buf := fun _ _ _ => 0 }

/-- autochunk, in terms of the dataset projections it reads: pixels =
RasterXSize * RasterYSize and bytes_per_pixel = itemsize * RasterCount.
The source iterates num_chunks over range(1, pixels), skips non-divisors,
and returns the first divisor whose exact chunk byte size is below
mem_limit; falling off the loop yields None. -/
def autochunk (pixels bytes_per_pixel mem_limit : ℕ) : Option ℕ :=
  (List.range' 1 (pixels - 1)).find?
    (fun d => pixels % d == 0 && decide (pixels / d * bytes_per_pixel < mem_limit))

/-- autochunk applied to a raster with a given per-band pixel item size. -/
def autochunkRaster (r : Raster) (itemsize mem_limit : ℕ) : Option ℕ :=
  autochunk (r.xsize * r.ysize) (itemsize * r.bands) mem_limit

/-- A concrete 10 by 10, 2-band raster at 10 metre resolution used to
instantiate theorems with hypotheses: footprint x in [100, 200] and
y in [400, 500]. -/
def demoRaster : Raster :=
  { gt0 := 100, gt1 := 10, gt3 := 500, gt5 := -10,
    xsize := 10, ysize := 10, bands := 2, buf := fun _ _ _ => 7 }

lemma floor_pix_in_range (o w : ℚ) (n : ℕ) (v : ℚ) (hw : 0 < w)
    (h1 : o ≤ v) (h2 : v ≤ o + w * n) :
    0 ≤ ⌊(v - o) / w⌋ ∧ ⌊(v - o) / w⌋ ≤ (n : ℤ) := by
  constructor
  · exact Int.floor_nonneg.mpr (div_nonneg (sub_nonneg.mpr h1) hw.le)
  · have hq : (v - o) / w ≤ (n : ℚ) := by
      rw [div_le_iff hw]
      have := mul_comm w (n : ℚ)
      linarith
    calc ⌊(v - o) / w⌋ ≤ ⌊(n : ℚ)⌋ := Int.floor_le_floor hq
      _ = (n : ℤ) := Int.floor_natCast n

lemma floor_pix_in_range_neg (o w : ℚ) (n : ℕ) (v : ℚ) (hw : w < 0)
    (h1 : o + w * n ≤ v) (h2 : v ≤ o) :
    0 ≤ ⌊(v - o) / w⌋ ∧ ⌊(v - o) / w⌋ ≤ (n : ℤ) := by
  constructor
  · exact Int.floor_nonneg.mpr (div_nonneg_of_nonpos (by linarith) hw.le)
  · have hq : (v - o) / w ≤ (n : ℚ) := by
      rw [div_le_iff_of_neg hw]
      have := mul_comm w (n : ℚ)
      linarith
    calc ⌊(v - o) / w⌋ ≤ ⌊(n : ℚ)⌋ := Int.floor_le_floor hq
      _ = (n : ℤ) := Int.floor_natCast n

lemma swap_pair_range (a b lo hi : ℤ)
    (ha1 : lo ≤ a) (ha2 : a ≤ hi) (hb1 : lo ≤ b) (hb2 : b ≤ hi) :
    lo ≤ (if a ≥ b then (b, a) else (a, b)).1 ∧
    (if a ≥ b then (b, a) else (a, b)).1 ≤ (if a ≥ b then (b, a) else (a, b)).2 ∧
    (if a ≥ b then (b, a) else (a, b)).2 ≤ hi := by
  split <;> simp_all <;> omega

/-- Claim C6: for integer pixel coordinates (col, row) on a grid with
positive pixel width and negative pixel height, converting to geographic
coordinates by the spec-modelled pixel_to_geo and back through
point_to_pixel_coordinates (floor division) recovers (col, row) exactly. -/
theorem pixel_geo_roundtrip (r : Raster) (col row : ℤ)
    (hw : 0 < r.gt1) (hh : r.gt5 < 0)
    (hcol0 : 0 ≤ col) (hcol1 : col < (r.xsize : ℤ))
    (hrow0 : 0 ≤ row) (hrow1 : row < (r.ysize : ℤ)) :
    point_to_pixel_coordinates r (pixel_to_geo r col row).1 (pixel_to_geo r col row).2
      = (col, row) := by
  have hw0 : r.gt1 ≠ 0 := ne_of_gt hw
  have hh0 : r.gt5 ≠ 0 := ne_of_lt hh
  unfold point_to_pixel_coordinates pixel_to_geo
  simp only [add_sub_cancel_left]
  rw [mul_div_assoc, div_self hw0, mul_one,
      mul_div_assoc, div_self hh0, mul_one,
      Int.floor_intCast, Int.floor_intCast]

/-- Witness for C6 at a concrete grid and pixel. -/
theorem pixel_geo_roundtrip_witness :
    point_to_pixel_coordinates demoRaster
      (pixel_to_geo demoRaster 3 4).1 (pixel_to_geo demoRaster 3 4).2 = (3, 4) :=
  pixel_geo_roundtrip demoRaster 3 4 (by norm_num [demoRaster])
    (by norm_num [demoRaster]) (by norm_num) (by norm_num [demoRaster])
    (by norm_num) (by norm_num [demoRaster])

/-- Claim C7: for a raster with positive pixel width and negative pixel
height and a non-degenerate polygon fully contained in the raster's
footprint, the window returned by pixel_bounds_from_polygon satisfies
0 <= x_min <= x_max <= raster width and 0 <= y_min <= y_max <= raster
height, the swap-if-inverted correction guaranteeing min <= max. -/
theorem window_monotone (r : Raster) (poly : Rect)
    (hw : 0 < r.gt1) (hh : r.gt5 < 0)
    (hpx : poly.xMin ≤ poly.xMax) (hpy : poly.yMin ≤ poly.yMax)
    (hx1 : r.gt0 ≤ poly.xMin) (hx2 : poly.xMax ≤ r.gt0 + r.gt1 * r.xsize)
    (hy1 : r.gt3 + r.gt5 * r.ysize ≤ poly.yMin) (hy2 : poly.yMax ≤ r.gt3) :
    0 ≤ (pixel_bounds_from_polygon r poly).xMin ∧
    (pixel_bounds_from_polygon r poly).xMin ≤ (pixel_bounds_from_polygon r poly).xMax ∧
    (pixel_bounds_from_polygon r poly).xMax ≤ (r.xsize : ℤ) ∧
    0 ≤ (pixel_bounds_from_polygon r poly).yMin ∧
    (pixel_bounds_from_polygon r poly).yMin ≤ (pixel_bounds_from_polygon r poly).yMax ∧
    (pixel_bounds_from_polygon r poly).yMax ≤ (r.ysize : ℤ) := by
  have hxa := floor_pix_in_range r.gt0 r.gt1 r.xsize poly.xMin hw hx1 (by linarith)
  have hxb := floor_pix_in_range r.gt0 r.gt1 r.xsize poly.xMax hw (by linarith) hx2
  have hya := floor_pix_in_range_neg r.gt3 r.gt5 r.ysize poly.yMin hh hy1 (by linarith)
  have hyb := floor_pix_in_range_neg r.gt3 r.gt5 r.ysize poly.yMax hh (by linarith) hy2
  have hixmin : max (get_raster_bounds r).xMin poly.xMin = poly.xMin :=
    max_eq_right hx1
  have hixmax : min (get_raster_bounds r).xMax poly.xMax = poly.xMax := by
    simp only [get_raster_bounds]
    exact min_eq_right hx2
  have hiymin : max (get_raster_bounds r).yMin poly.yMin = poly.yMin := by
    simp only [get_raster_bounds]
    exact max_eq_right hy1
  have hiymax : min (get_raster_bounds r).yMax poly.yMax = poly.yMax :=
    min_eq_right hy2
  have hxs := swap_pair_range
    ⌊(poly.xMin - r.gt0) / r.gt1⌋ ⌊(poly.xMax - r.gt0) / r.gt1⌋ 0 (r.xsize : ℤ)
    hxa.1 hxa.2 hxb.1 hxb.2
  have hys := swap_pair_range
    ⌊(poly.yMin - r.gt3) / r.gt5⌋ ⌊(poly.yMax - r.gt3) / r.gt5⌋ 0 (r.ysize : ℤ)
    hya.1 hya.2 hyb.1 hyb.2
  simp only [pixel_bounds_from_polygon, rectIntersection,
    point_to_pixel_coordinates, get_raster_bounds] at *
  simp only [hixmin, hixmax, hiymin, hiymax] at *
  exact ⟨hxs.1, hxs.2.1, hxs.2.2, hys.1, hys.2.1, hys.2.2⟩

/-- A polygon strictly inside demoRaster's footprint, for the C7 witness. -/
def demoRect : Rect := { xMin := 120, xMax := 165, yMin := 430, yMax := 475 }

/-- Witness for C7 at a concrete raster and contained polygon. -/
theorem window_monotone_witness :
    0 ≤ (pixel_bounds_from_polygon demoRaster demoRect).xMin ∧
    (pixel_bounds_from_polygon demoRaster demoRect).xMin ≤
      (pixel_bounds_from_polygon demoRaster demoRect).xMax ∧
    (pixel_bounds_from_polygon demoRaster demoRect).xMax ≤ (demoRaster.xsize : ℤ) ∧
    0 ≤ (pixel_bounds_from_polygon demoRaster demoRect).yMin ∧
    (pixel_bounds_from_polygon demoRaster demoRect).yMin ≤
      (pixel_bounds_from_polygon demoRaster demoRect).yMax ∧
    (pixel_bounds_from_polygon demoRaster demoRect).yMax ≤ (demoRaster.ysize : ℤ) :=
  window_monotone demoRaster demoRect (by norm_num [demoRaster])
    (by norm_num [demoRaster]) (by norm_num [demoRect]) (by norm_num [demoRect])
    (by norm_num [demoRaster, demoRect]) (by norm_num [demoRaster, demoRect])
    (by norm_num [demoRaster, demoRect]) (by norm_num [demoRaster, demoRect])

lemma find?_range'_eq_some_iff (p : ℕ → Bool) :
    ∀ (n s d : ℕ), (List.range' s n).find? p = some d ↔
      (p d = true ∧ s ≤ d ∧ d < s + n ∧ ∀ e, s ≤ e → e < d → p e = false) := by
  intro n
  induction n with
  | zero =>
    intro s d
    simp only [List.range', List.find?]
    constructor
    · intro h
      exact absurd h (by simp)
    · intro h
      omega
  | succ n ih =>
    intro s d
    rw [List.range'_succ]
    by_cases hp : p s = true
    · rw [List.find?_cons_of_pos _ hp]
      constructor
      · intro h
        have hds : d = s := by
          have := Option.some.inj h
          omega
        subst hds
        refine ⟨hp, le_refl d, by omega, ?_⟩
        intro e he1 he2
        omega
      · rintro ⟨hpd, hsd, hdn, hall⟩
        rcases Nat.eq_or_lt_of_le hsd with heq | hlt
        · rw [heq]
        · exact absurd hp (by simp [hall s (le_refl s) hlt])
    · rw [List.find?_cons_of_neg _ hp]
      rw [ih (s + 1) d]
      constructor
      · rintro ⟨hpd, hsd, hdn, hall⟩
        refine ⟨hpd, by omega, by omega, ?_⟩
        intro e he1 he2
        rcases Nat.eq_or_lt_of_le he1 with heq | hlt
        · rw [← heq]
          exact Bool.not_eq_true _ ▸ (by simpa using hp)
        · exact hall e (by omega) he2
      · rintro ⟨hpd, hsd, hdn, hall⟩
        have hsd1 : s + 1 ≤ d := by
          rcases Nat.eq_or_lt_of_le hsd with heq | hlt
          · exact absurd hpd (by rw [← heq]; simp [hp])
          · omega
        exact ⟨hpd, hsd1, by omega, fun e he1 he2 => hall e (by omega) he2⟩

/-- Claim C8, amended: autochunk searches divisors strictly below the total
pixel count only; it returns d exactly when d is the smallest divisor of
pixels with 1 <= d < pixels whose exact chunk byte size
(pixels / d) * bytes_per_pixel is strictly below mem_limit. -/
theorem autochunk_characterization (pixels bpp lim d : ℕ) :
    autochunk pixels bpp lim = some d ↔
      (1 ≤ d ∧ d < pixels ∧ pixels % d = 0 ∧ pixels / d * bpp < lim ∧
       ∀ e, 1 ≤ e → e < d → ¬(pixels % e = 0 ∧ pixels / e * bpp < lim)) := by
  unfold autochunk
  rw [find?_range'_eq_some_iff]
  constructor
  · rintro ⟨hpd, hsd, hdn, hall⟩
    have hd1 : pixels % d = 0 ∧ pixels / d * bpp < lim := by
      simpa using hpd
    refine ⟨hsd, by omega, hd1.1, hd1.2, ?_⟩
    intro e he1 he2 hcon
    have := hall e he1 he2
    simp [hcon.1, hcon.2] at this
  · rintro ⟨hd1, hdp, hmod, hbound, hall⟩
    refine ⟨by simp [hmod, hbound], hd1, by omega, ?_⟩
    intro e he1 he2
    have := hall e he1 he2
    by_contra hne
    rw [Bool.not_eq_false] at hne
    simp only [Bool.and_eq_true, beq_iff_eq, decide_eq_true_eq] at hne
    exact this hne

/-- Claim C8 counterexample: a 2 by 1 single-band raster with one-byte
pixels and a memory limit of 2 bytes.  The divisor 2 of the pixel count 2
satisfies the byte bound ((2/2)*1 = 1 < 2) and no smaller divisor does,
yet autochunk returns none, because range(1, pixels) never reaches the
divisor equal to the pixel count itself. -/
theorem autochunk_counterexample :
    autochunkRaster
      { gt0 := 0, gt1 := 1, gt3 := 0, gt5 := -1,
        xsize := 2, ysize := 1, bands := 1, buf := fun _ _ _ => 1 } 1 2 = none ∧
    2 % 2 = 0 ∧ 2 / 2 * 1 < 2 := by
  refine ⟨?_, by norm_num, by norm_num⟩
  rfl

/-- A flattened sample: the per-band values of one pixel, as one row of the
(x*y, band) array produced by reshape_raster_for_ml. -/
abbrev Sample := List ℤ

/-- np.all(j != nodata): a sample is good when no band equals nodata. -/
def isGoodSample (nodata : ℤ) (s : Sample) : Bool :=
  s.all (fun v => v != nodata)

/-- The pre-check `0 in image_array` of classify_image: true when any band
of any sample equals the literal 0 (not the nodata parameter). -/
def zeroPresent (samples : List Sample) : Bool :=
  samples.any (fun s => s.any (fun v => v == 0))

/-- good_samples: the nodata filter runs only when the pre-check fires;
otherwise every sample is kept. -/
def goodSamples (nodata : ℤ) (samples : List Sample) : List Sample :=
  if zeroPresent samples then samples.filter (isGoodSample nodata) else samples

/-- good_indices: [i for (i, j) in enumerate(image_array) if np.all(j != nodata)],
again guarded by the literal-zero pre-check. -/
def goodIndices (nodata : ℤ) (samples : List Sample) : List ℕ :=
  if zeroPresent samples then
    (samples.enum.filter (fun p => isGoodSample nodata p.2)).map (fun p => p.1)
  else List.range samples.length

/-- The chunk loop of classify_image: chunk_size = n_good / num_chunks,
chunk_id runs over range(num_chunks) with offset chunk_id * chunk_size, and
the last chunk absorbs the residual n_good - chunk_size * num_chunks.  The
loop writes model predictions into disjoint ordered contiguous slices of
the preallocated ubyte classes array (hence the mod 256), so the array
after the loop is the concatenation of the per-chunk prediction lists. -/
def chunkPredictions (predict : Sample → ℕ) (good : List Sample)
    (num_chunks : ℕ) : List ℕ :=
  ((List.range num_chunks).map (fun chunk_id =>
    ((good.drop (chunk_id * (good.length / num_chunks))).take
      (if chunk_id = num_chunks - 1 then
        good.length / num_chunks +
          (good.length - good.length / num_chunks * num_chunks)
      else good.length / num_chunks)).map (fun s => predict s % 256))).flatten

/-- The scatter loop: class_out_array = np.full(n_samples, nodata), then
for (i, class_val) in zip(good_indices, classes): class_out_array[i] = class_val. -/
def scatterClasses (n : ℕ) (nodata : ℤ) (idxs : List ℕ) (vals : List ℕ) :
    List ℤ :=
  (idxs.zip vals).foldl (fun acc p => acc.set p.1 (p.2 : ℤ))
    (List.replicate n nodata)

/-- classify_image at the flattened (x*y, band) sample level: filter good
samples, predict them in num_chunks contiguous chunks, scatter the
predictions back to their remembered flat indices leaving nodata
everywhere else.  The reshape from (band, y, x) to sample rows and back is
the row-major bijection i = y * xsize + x and does not affect per-pixel
values. -/
def classify_image_flat (predict : Sample → ℕ) (nodata : ℤ)
    (samples : List Sample) (num_chunks : ℕ) : List ℤ :=
  scatterClasses samples.length nodata (goodIndices nodata samples)
    (chunkPredictions predict (goodSamples nodata samples) num_chunks)

lemma range_chunk_join {α : Type} (cs : ℕ) :
    ∀ (k : ℕ) (l : List α), 1 ≤ k → (k - 1) * cs ≤ l.length →
      ((List.range k).map (fun cid =>
        if cid = k - 1 then l.drop (cid * cs)
        else (l.drop (cid * cs)).take cs)).flatten = l := by
  intro k
  induction k with
  | zero => intro l hk hlen; omega
  | succ k ih =>
    intro l hk hlen
    rcases Nat.eq_zero_or_pos k with hk0 | hkpos
    · subst hk0
      simp [List.range_succ]
    · rw [List.range_succ_eq_map, List.map_cons, List.map_map, List.flatten_cons]
      have hhead : (if 0 = k + 1 - 1 then l.drop (0 * cs)
          else (l.drop (0 * cs)).take cs) = l.take cs := by
        rw [if_neg (by omega)]
        simp
      rw [hhead]
      have hmul : (k - 1) * cs + cs = k * cs := by
        cases k with
        | zero => omega
        | succ m => simp [Nat.succ_sub_one, Nat.succ_mul]
      have hlen' : (k - 1) * cs ≤ (l.drop cs).length := by
        rw [List.length_drop]
        have : k * cs ≤ l.length := by
          simpa [Nat.succ_sub_one] using hlen
        omega
      have htail : ((List.range k).map
          ((fun cid => if cid = k + 1 - 1 then l.drop (cid * cs)
            else (l.drop (cid * cs)).take cs) ∘ Nat.succ)).flatten = l.drop cs := by
        rw [← ih (l.drop cs) hkpos hlen']
        congr 1
        apply List.map_congr_left
        intro cid _
        have harg : l.drop (Nat.succ cid * cs) = (l.drop cs).drop (cid * cs) := by
          rw [List.drop_drop]
          congr 1
          rw [Nat.succ_mul]
          omega
        simp only [Function.comp_apply, harg]
        exact if_congr (by omega) rfl rfl
      rw [htail, List.take_append_drop]

lemma chunkPredictions_eq_map (predict : Sample → ℕ) (good : List Sample)
    (k : ℕ) (hk : 1 ≤ k) :
    chunkPredictions predict good k = good.map (fun s => predict s % 256) := by
  unfold chunkPredictions
  have hlen : (good.map (fun s => predict s % 256)).length = good.length :=
    List.length_map _ _
  have hkcs : (k - 1) * (good.length / k) ≤ good.length := by
    have h1 : good.length / k * k ≤ good.length := Nat.div_mul_le_self _ k
    have h2 : (k - 1) * (good.length / k) ≤ k * (good.length / k) :=
      Nat.mul_le_mul_right _ (by omega)
    have h3 : k * (good.length / k) = good.length / k * k := Nat.mul_comm _ _
    omega
  have htile := range_chunk_join (good.length / k) k
    (good.map (fun s => predict s % 256)) hk (by rw [hlen]; exact hkcs)
  rw [← htile]
  congr 1
  apply List.map_congr_left
  intro cid _
  rw [List.map_take, List.map_drop]
  by_cases hlast : cid = k - 1
  · rw [if_pos hlast, if_pos hlast, hlast]
    apply List.take_of_length_le
    rw [List.length_drop, hlen]
    have h1 : good.length / k * k ≤ good.length := Nat.div_mul_le_self _ k
    have h2 : (k - 1) * (good.length / k) + good.length / k = k * (good.length / k) := by
      cases k with
      | zero => omega
      | succ m => simp [Nat.succ_sub_one, Nat.succ_mul]
    have h3 : k * (good.length / k) = good.length / k * k := Nat.mul_comm _ _
    omega
  · rw [if_neg hlast, if_neg hlast]

/-- Claim C1: the class output of classify_image does not depend on the
chunk count: for every per-sample model, nodata value, sample list and
valid chunk count k, classifying with num_chunks = k yields the same
flattened class map as num_chunks = 1, because the contiguous chunks with
the last absorbing the residual cover every good sample exactly once. -/
theorem classify_chunk_equivalence (predict : Sample → ℕ) (nodata : ℤ)
    (samples : List Sample) (k : ℕ) (hk : 1 ≤ k) :
    classify_image_flat predict nodata samples k
      = classify_image_flat predict nodata samples 1 := by
  unfold classify_image_flat
  rw [chunkPredictions_eq_map predict _ k hk,
      chunkPredictions_eq_map predict _ 1 (le_refl 1)]

/-- Witness for C1: sixteen single-band samples, one of them nodata, so
fifteen good samples split into seven chunks of size two with residual one;
the class map is identical to the single-chunk run. -/
theorem classify_chunk_equivalence_witness :
    classify_image_flat (fun s => (s.headD 0).toNat) 0
      [[1],[2],[0],[3],[4],[5],[6],[7],[8],[9],[10],[11],[12],[13],[14],[15]] 7
    = classify_image_flat (fun s => (s.headD 0).toNat) 0
      [[1],[2],[0],[3],[4],[5],[6],[7],[8],[9],[10],[11],[12],[13],[14],[15]] 1 :=
  classify_chunk_equivalence (fun s => (s.headD 0).toNat) 0
    [[1],[2],[0],[3],[4],[5],[6],[7],[8],[9],[10],[11],[12],[13],[14],[15]] 7
    (by norm_num)

/-- Claim C2 failing input evaluated: with nodata = 5 and a raster whose
single sample has its only band equal to 5 and which contains no zero
value anywhere, the pre-check `0 in image_array` is false, so the nodata
filter never runs and the nodata sample is classified: the output class
map holds the model's prediction 1 where the claim requires the nodata
value 5 (the sample is not good, as the second conjunct shows). -/
theorem classify_nodata_precheck_bug :
    classify_image_flat (fun _ => 1) 5 [[5]] 1 = [1] ∧
    isGoodSample 5 [5] = false := by
  exact ⟨rfl, rfl⟩

/-- np.bitwise_or on uint8 mask values (bytes held as integers). -/
def byteOr (a b : ℤ) : ℤ := Int.ofNat (Nat.lor (a % 256).toNat (b % 256).toNat)

/-- np.bitwise_and on uint8 mask values. -/
def byteAnd (a b : ℤ) : ℤ := Int.ofNat (Nat.land (a % 256).toNat (b % 256).toNat)

/-- np.bitwise_not on a uint8 value: complement within the byte. -/
def byteNot (a : ℤ) : ℤ := 255 - a % 256

/-- One iteration of the combine_masks loop over one input mask.  The
destination view is sliced from the current destination buffer, combined
with the input's view into a fresh array by the dispatched bitwise
operation, and the result is bound to the local name out_mask_view again:
a numpy name rebinding, not a store through the view, so the computed
chunk is dead and the destination buffer is returned unchanged.  The
combination_func dispatch still raises on an unrecognized value, as does
the geometry_func dispatch that selects the window source. -/
def combine_masks_step (combined_polygon : Rect)
    (combination_func geometry_func : String) (out_mask in_mask : Raster) :
    Except CoreError Raster :=
  if geometry_func = "intersect" ∨ geometry_func = "union" then
    let outw := if geometry_func = "intersect" then
        pixel_bounds_from_polygon out_mask combined_polygon
      else pixel_bounds_from_polygon out_mask (get_raster_bounds in_mask)
    let inw := if geometry_func = "intersect" then
        pixel_bounds_from_polygon in_mask combined_polygon
      else pixel_bounds_from_polygon in_mask (get_raster_bounds in_mask)
    let out_view : ℕ → ℕ → ℤ := fun j i =>
      out_mask.buf 0 (outw.yMin.toNat + j) (outw.xMin.toNat + i)
    let in_view : ℕ → ℕ → ℤ := fun j i =>
      in_mask.buf 0 (inw.yMin.toNat + j) (inw.xMin.toNat + i)
    if combination_func = "or" then
      let _out_mask_view := fun j i => byteOr (out_view j i) (in_view j i)
      .ok out_mask
    else if combination_func = "and" then
      let _out_mask_view := fun j i => byteAnd (out_view j i) (in_view j i)
      .ok out_mask
    else if combination_func = "nor" then
      let _out_mask_view := fun j i => byteNot (byteOr (out_view j i) (in_view j i))
      .ok out_mask
    else .error .invalidCombinationFunc
  else .error .invalidGeometryMode

/-- The for-loop of combine_masks over the input masks, threading the
destination raster. -/
def combine_masks_loop (combined_polygon : Rect)
    (combination_func geometry_func : String) (out_mask : Raster) :
    List Raster → Except CoreError Raster
  | [] => .ok out_mask
  | m :: rest => do
      let next ← combine_masks_step combined_polygon combination_func
        geometry_func out_mask m
      combine_masks_loop combined_polygon combination_func geometry_func next rest

/-- combine_masks: builds the combined polygon (raising on an invalid
geometry mode), creates the destination byte mask at the first mask's
resolution over the combined polygon's envelope, assigns 1 to every
destination pixel (out_mask_array[:, :] = 1), and runs the per-input
loop. -/
def combine_masks (masks : List Raster)
    (combination_func geometry_func : String) : Except CoreError Raster :=
  match masks with
  | [] => .error .indexError
  | m0 :: _ => do
      let combined_polygon ← get_combined_polygon masks geometry_func
      let out0 := create_new_image_from_polygon combined_polygon m0.gt1 (-m0.gt5) 1
      let out1 : Raster := { out0 with buf := fun _ _ _ => 1 }
      combine_masks_loop combined_polygon combination_func geometry_func out1 masks

lemma combine_masks_step_ok (combined_polygon : Rect) (cf gf : String)
    (out_mask in_mask : Raster)
    (hcf : cf = "and" ∨ cf = "or" ∨ cf = "nor")
    (hgf : gf = "intersect" ∨ gf = "union") :
    combine_masks_step combined_polygon cf gf out_mask in_mask = .ok out_mask := by
  rcases hcf with h | h | h <;> subst h <;>
    rcases hgf with g | g <;> subst g <;> rfl

lemma combine_masks_loop_ok (combined_polygon : Rect) (cf gf : String)
    (out_mask : Raster) (masks : List Raster)
    (hcf : cf = "and" ∨ cf = "or" ∨ cf = "nor")
    (hgf : gf = "intersect" ∨ gf = "union") :
    combine_masks_loop combined_polygon cf gf out_mask masks = .ok out_mask := by
  induction masks with
  | nil => rfl
  | cons m rest ih =>
    unfold combine_masks_loop
    rw [combine_masks_step_ok combined_polygon cf gf out_mask m hcf hgf]
    exact ih

/-- Claim C10: for every non-empty input mask list and recognized
combination_func ('and', 'or', 'nor') and geometry_func ('intersect',
'union'), combine_masks succeeds and the mask it writes holds 1 at every
pixel regardless of the inputs: the destination starts all ones and the
loop's bitwise results are rebound to a local name instead of being stored
into the destination buffer. -/
theorem combine_masks_always_all_ones (masks : List Raster) (cf gf : String)
    (hne : masks ≠ [])
    (hcf : cf = "and" ∨ cf = "or" ∨ cf = "nor")
    (hgf : gf = "intersect" ∨ gf = "union") :
    ∃ out : Raster, combine_masks masks cf gf = .ok out ∧
      ∀ y x : ℕ, out.buf 0 y x = 1 := by
  match masks, hne with
  | m0 :: rest, _ =>
    have hpoly : ∃ poly : Rect,
        get_combined_polygon (m0 :: rest) gf = .ok poly := by
      rcases hgf with g | g <;> subst g
      · exact ⟨_, rfl⟩
      · exact ⟨_, rfl⟩
    rcases hpoly with ⟨poly, hpoly⟩
    refine ⟨{ create_new_image_from_polygon poly m0.gt1 (-m0.gt5) 1 with
      buf := fun _ _ _ => 1 }, ?_, fun y x => rfl⟩
    unfold combine_masks
    rw [hpoly]
    exact combine_masks_loop_ok poly cf gf _ (m0 :: rest) hcf hgf

/-- Witness for C10 at a concrete mask list and operation choice. -/
theorem combine_masks_always_all_ones_witness :
    ∃ out : Raster, combine_masks [demoRaster] "and" "intersect" = .ok out ∧
      ∀ y x : ℕ, out.buf 0 y x = 1 :=
  combine_masks_always_all_ones [demoRaster] "and" "intersect"
    (by simp) (Or.inl rfl) (Or.inl rfl)

/-- A 1 by 2 byte mask with pixel values [1, 0], the C3 failing input. -/
def cexMask : Raster :=
  { gt0 := 0, gt1 := 1, gt3 := 0, gt5 := -1, xsize := 2, ysize := 1,
    bands := 1, buf := fun _ _ x => if x = 0 then 1 else 0 }

/-- Claim C3 failing input evaluated: combine_masks([m, m], "and",
"intersect") for the mask m with pixels [1, 0] produces the all-ones mask
(1, 1) rather than m itself, because the loop's bitwise AND result is
rebound to a local name and never stored into the destination, which was
initialized to all ones; the claim's law m AND m = m therefore fails at
pixel (0, 1), where m holds 0. -/
theorem combine_masks_and_idempotence_fails :
    Except.map (fun o : Raster => (o.buf 0 0 0, o.buf 0 0 1))
      (combine_masks [cexMask, cexMask] "and" "intersect")
      = .ok ((1 : ℤ), (1 : ℤ)) ∧
    cexMask.buf 0 0 1 = 0 := by
  exact ⟨rfl, rfl⟩

/-- One iteration of the stack_images copy loop: the input's bands land in
the destination band range [present_layer, present_layer + RasterCount) at
the destination's window for the combined polygon, read from the input's
window for the same polygon (np.copyto with aligned view shapes); the
accumulator carries the destination raster and present_layer. -/
def stack_copy_step (combined_polygon : Rect) (acc : Raster × ℕ)
    (in_raster : Raster) : Raster × ℕ :=
  let outw := pixel_bounds_from_polygon acc.1 combined_polygon
  let inw := pixel_bounds_from_polygon in_raster combined_polygon
  let newbuf : ℕ → ℕ → ℕ → ℤ := fun b y x =>
    if acc.2 ≤ b ∧ b < acc.2 + in_raster.bands ∧
        outw.yMin.toNat ≤ y ∧ y < outw.yMax.toNat ∧
        outw.xMin.toNat ≤ x ∧ x < outw.xMax.toNat then
      in_raster.buf (b - acc.2) (inw.yMin.toNat + (y - outw.yMin.toNat))
        (inw.xMin.toNat + (x - outw.xMin.toNat))
    else acc.1.buf b y x
  ({ acc.1 with buf := newbuf }, acc.2 + in_raster.bands)

/-- stack_images: raises StackImagesException on fewer than two inputs;
otherwise allocates a destination with the summed band count over the
combined polygon at the first input's resolution and runs the band-copy
loop over the inputs in order. -/
def stack_images (rasters : List Raster) (geometry_mode : String) :
    Except CoreError Raster :=
  match rasters with
  | [] => .error .stackImages
  | [_] => .error .stackImages
  | r0 :: r1 :: rest => do
      let total_layers := ((r0 :: r1 :: rest).map Raster.bands).sum
      let x_res := r0.gt1
      let y_res := r0.gt5 * (-1)
      let combined_polygon ← get_combined_polygon (r0 :: r1 :: rest) geometry_mode
      let out0 := create_new_image_from_polygon combined_polygon x_res y_res total_layers
      .ok ((r0 :: r1 :: rest).foldl (stack_copy_step combined_polygon) (out0, 0)).1

/-- Claim C9: a stack invocation with fewer than two input rasters fails
with the StackImagesException kind (the too-few-inputs failure of a
multi-raster operation) and produces no output raster. -/
theorem stack_too_few_inputs (rasters : List Raster) (geometry_mode : String)
    (h : rasters.length < 2) :
    stack_images rasters geometry_mode = .error .stackImages := by
  match rasters with
  | [] => rfl
  | [_] => rfl
  | _ :: _ :: _ => exact absurd h (by simp)

/-- Witness for C9: the empty input list. -/
theorem stack_too_few_inputs_witness :
    stack_images ([] : List Raster) "intersect" = .error .stackImages :=
  stack_too_few_inputs [] "intersect" (by norm_num)

/-- The combined polygon stack_images computes for two rasters in
intersect mode: the intersection of their footprints. -/
def combinedIntersection (r1 r2 : Raster) : Rect :=
  multiple_intersection [get_raster_bounds r1, get_raster_bounds r2]

lemma stack_fold_fields (poly : Rect) (l : List Raster) :
    ∀ acc : Raster × ℕ,
      (l.foldl (stack_copy_step poly) acc).1.gt0 = acc.1.gt0 ∧
      (l.foldl (stack_copy_step poly) acc).1.gt1 = acc.1.gt1 ∧
      (l.foldl (stack_copy_step poly) acc).1.gt3 = acc.1.gt3 ∧
      (l.foldl (stack_copy_step poly) acc).1.gt5 = acc.1.gt5 ∧
      (l.foldl (stack_copy_step poly) acc).1.xsize = acc.1.xsize ∧
      (l.foldl (stack_copy_step poly) acc).1.ysize = acc.1.ysize ∧
      (l.foldl (stack_copy_step poly) acc).1.bands = acc.1.bands := by
  induction l with
  | nil => intro acc; exact ⟨rfl, rfl, rfl, rfl, rfl, rfl, rfl⟩
  | cons r rest ih =>
    intro acc
    simpa [stack_copy_step] using ih (stack_copy_step poly acc r)

/-- Claim C4: stacking two overlapping rasters in intersect mode yields a
raster whose band count is the sum of the input band counts and whose
footprint agrees with the geometric intersection of the input footprints
up to rounding to whole pixels at the first input's resolution: the
top-left corner is exact, and the right and bottom edges fall short of the
intersection envelope by strictly less than one pixel. -/
theorem stack_two_bandcount_footprint (r1 r2 : Raster)
    (hres : 0 < r1.gt1) (hneg : r1.gt5 < 0)
    (hox : (combinedIntersection r1 r2).xMin < (combinedIntersection r1 r2).xMax)
    (hoy : (combinedIntersection r1 r2).yMin < (combinedIntersection r1 r2).yMax) :
    ∃ out : Raster, stack_images [r1, r2] "intersect" = .ok out ∧
      out.bands = r1.bands + r2.bands ∧
      (get_raster_bounds out).xMin = (combinedIntersection r1 r2).xMin ∧
      (get_raster_bounds out).yMax = (combinedIntersection r1 r2).yMax ∧
      (get_raster_bounds out).xMax ≤ (combinedIntersection r1 r2).xMax ∧
      (combinedIntersection r1 r2).xMax - r1.gt1 < (get_raster_bounds out).xMax ∧
      (combinedIntersection r1 r2).yMin ≤ (get_raster_bounds out).yMin ∧
      (get_raster_bounds out).yMin < (combinedIntersection r1 r2).yMin + r1.gt5 * (-1) := by
  set I := combinedIntersection r1 r2 with hIdef
  have hyres : 0 < r1.gt5 * (-1) := by linarith
  have hstack : stack_images [r1, r2] "intersect"
      = .ok ([r1, r2].foldl (stack_copy_step I)
          (create_new_image_from_polygon I r1.gt1 (r1.gt5 * (-1))
            (([r1, r2].map Raster.bands).sum), 0)).1 := rfl
  obtain ⟨h0, h1, h3, h5, hxs, hys, hbs⟩ := stack_fold_fields I [r1, r2]
    (create_new_image_from_polygon I r1.gt1 (r1.gt5 * (-1))
      (([r1, r2].map Raster.bands).sum), 0)
  have hqx : (0:ℚ) ≤ (I.xMax - I.xMin) / r1.gt1 :=
    div_nonneg (by linarith) hres.le
  have hqy : (0:ℚ) ≤ (I.yMax - I.yMin) / (r1.gt5 * (-1)) :=
    div_nonneg (by linarith) hyres.le
  have hpx : pyInt ((I.xMax - I.xMin) / r1.gt1) = ⌊(I.xMax - I.xMin) / r1.gt1⌋ :=
    if_pos hqx
  have hpy : pyInt ((I.yMax - I.yMin) / (r1.gt5 * (-1)))
      = ⌊(I.yMax - I.yMin) / (r1.gt5 * (-1))⌋ := if_pos hqy
  have hcx : (((pyInt ((I.xMax - I.xMin) / r1.gt1)).toNat : ℚ))
      = ((⌊(I.xMax - I.xMin) / r1.gt1⌋ : ℤ) : ℚ) := by
    rw [hpx]
    have := Int.toNat_of_nonneg (Int.floor_nonneg.mpr hqx)
    exact_mod_cast congrArg (fun z : ℤ => (z : ℚ)) this
  have hcy : (((pyInt ((I.yMax - I.yMin) / (r1.gt5 * (-1)))).toNat : ℚ))
      = ((⌊(I.yMax - I.yMin) / (r1.gt5 * (-1))⌋ : ℤ) : ℚ) := by
    rw [hpy]
    have := Int.toNat_of_nonneg (Int.floor_nonneg.mpr hqy)
    exact_mod_cast congrArg (fun z : ℤ => (z : ℚ)) this
  have hxlo : ((⌊(I.xMax - I.xMin) / r1.gt1⌋ : ℤ) : ℚ) * r1.gt1 ≤ I.xMax - I.xMin :=
    (le_div_iff hres).mp (Int.floor_le _)
  have hxhi : I.xMax - I.xMin < (((⌊(I.xMax - I.xMin) / r1.gt1⌋ : ℤ) : ℚ) + 1) * r1.gt1 :=
    (div_lt_iff hres).mp (Int.lt_floor_add_one _)
  have hylo : ((⌊(I.yMax - I.yMin) / (r1.gt5 * (-1))⌋ : ℤ) : ℚ) * (r1.gt5 * (-1))
      ≤ I.yMax - I.yMin := (le_div_iff hyres).mp (Int.floor_le _)
  have hyhi : I.yMax - I.yMin
      < (((⌊(I.yMax - I.yMin) / (r1.gt5 * (-1))⌋ : ℤ) : ℚ) + 1) * (r1.gt5 * (-1)) :=
    (div_lt_iff hyres).mp (Int.lt_floor_add_one _)
  refine ⟨_, hstack, ?_, ?_, ?_, ?_, ?_, ?_, ?_⟩
  · rw [hbs]
    simp [create_new_image_from_polygon]
  · simp only [get_raster_bounds]
    rw [h0]
    simp [create_new_image_from_polygon]
  · simp only [get_raster_bounds]
    rw [h3]
    simp [create_new_image_from_polygon]
  · simp only [get_raster_bounds]
    rw [h0, h1, hxs]
    simp only [create_new_image_from_polygon]
    rw [hcx]
    nlinarith [hxlo]
  · simp only [get_raster_bounds]
    rw [h0, h1, hxs]
    simp only [create_new_image_from_polygon]
    rw [hcx]
    nlinarith [hxhi]
  · simp only [get_raster_bounds]
    rw [h3, h5, hys]
    simp only [create_new_image_from_polygon]
    rw [hcy]
    nlinarith [hylo]
  · simp only [get_raster_bounds]
    rw [h3, h5, hys]
    simp only [create_new_image_from_polygon]
    rw [hcy]
    nlinarith [hyhi]

/-- First raster of the spec's stacking scenario: 2 bands, 10 by 10 pixels
at 10 metre resolution, x footprint [0, 100]. -/
def stackR1 : Raster :=
  { gt0 := 0, gt1 := 10, gt3 := 0, gt5 := -10,
    xsize := 10, ysize := 10, bands := 2, buf := fun _ _ _ => 1 }

/-- Second raster of the scenario, shifted 40 metres left so the overlap is
the left 6 columns of the first raster. -/
def stackR2 : Raster :=
  { gt0 := -40, gt1 := 10, gt3 := 0, gt5 := -10,
    xsize := 10, ysize := 10, bands := 2, buf := fun _ _ _ => 2 }

/-- Witness for C4 at the spec's concrete scenario. -/
theorem stack_two_bandcount_footprint_witness :
    ∃ out : Raster, stack_images [stackR1, stackR2] "intersect" = .ok out ∧
      out.bands = stackR1.bands + stackR2.bands ∧
      (get_raster_bounds out).xMin = (combinedIntersection stackR1 stackR2).xMin ∧
      (get_raster_bounds out).yMax = (combinedIntersection stackR1 stackR2).yMax ∧
      (get_raster_bounds out).xMax ≤ (combinedIntersection stackR1 stackR2).xMax ∧
      (combinedIntersection stackR1 stackR2).xMax - stackR1.gt1
        < (get_raster_bounds out).xMax ∧
      (combinedIntersection stackR1 stackR2).yMin ≤ (get_raster_bounds out).yMin ∧
      (get_raster_bounds out).yMin
        < (combinedIntersection stackR1 stackR2).yMin + stackR1.gt5 * (-1) :=
  stack_two_bandcount_footprint stackR1 stackR2
    (by norm_num [stackR1])
    (by norm_num [stackR1])
    (by norm_num [combinedIntersection, multiple_intersection, rectIntersection,
      get_raster_bounds, stackR1, stackR2])
    (by norm_num [combinedIntersection, multiple_intersection, rectIntersection,
      get_raster_bounds, stackR1, stackR2])

/-- One mosaic_images iteration: the destination window for the source's
own bounds is computed from the destination, and the destination view over
all its bands at that window receives the source's full array wherever the
source value differs from nodata (np.copyto with where=), leaving every
other destination pixel unchanged. -/
def mosaic_step (nodata : ℤ) (out_raster in_raster : Raster) : Raster :=
  let outw := pixel_bounds_from_polygon out_raster (get_raster_bounds in_raster)
  let newbuf : ℕ → ℕ → ℕ → ℤ := fun b y x =>
    if b < out_raster.bands ∧
        outw.yMin.toNat ≤ y ∧ y < outw.yMax.toNat ∧
        outw.xMin.toNat ≤ x ∧ x < outw.xMax.toNat ∧
        in_raster.buf b (y - outw.yMin.toNat) (x - outw.xMin.toNat) ≠ nodata then
      in_raster.buf b (y - outw.yMin.toNat) (x - outw.xMin.toNat)
    else out_raster.buf b y x
  { out_raster with buf := newbuf }

/-- mosaic_images: union polygon over all the inputs' bounds, destination
allocated at the first input's resolution with the first input's band
count, then every source is copied in order skipping its nodata pixels, so
a later source's valid pixels overwrite an earlier source's. -/
def mosaic_images (rasters : List Raster) (nodata : ℤ) : Except CoreError Raster :=
  match rasters with
  | [] => .error .indexError
  | r0 :: rest =>
      let combined_polygon := multiple_union ((r0 :: rest).map get_raster_bounds)
      let out0 := create_new_image_from_polygon combined_polygon r0.gt1
        (r0.gt5 * (-1)) r0.bands
      .ok ((r0 :: rest).foldl (mosaic_step nodata) out0)

lemma rectIntersection_self (a : Rect) : rectIntersection a a = a := by
  cases a
  simp [rectIntersection]

lemma rectUnion_self (a : Rect) : rectUnion a a = a := by
  cases a
  simp [rectUnion]

lemma raster_eq_of_fields {a b : Raster} (h0 : a.gt0 = b.gt0)
    (h1 : a.gt1 = b.gt1) (h3 : a.gt3 = b.gt3) (h5 : a.gt5 = b.gt5)
    (hx : a.xsize = b.xsize) (hy : a.ysize = b.ysize) (hb : a.bands = b.bands)
    (hf : a.buf = b.buf) : a = b := by
  cases a
  cases b
  simp_all

lemma pixel_bounds_self (s : Raster) (hres : 0 < s.gt1) (hneg : s.gt5 < 0)
    (hxs : 0 < s.xsize) :
    pixel_bounds_from_polygon s (get_raster_bounds s)
      = Window.mk 0 (s.xsize : ℤ) 0 (s.ysize : ℤ) := by
  have hg1 : s.gt1 ≠ 0 := ne_of_gt hres
  have hg5 : s.gt5 ≠ 0 := ne_of_lt hneg
  have hx1 : ((get_raster_bounds s).xMin - s.gt0) / s.gt1 = 0 := by
    simp [get_raster_bounds]
  have hy2 : ((get_raster_bounds s).yMax - s.gt3) / s.gt5 = 0 := by
    simp [get_raster_bounds]
  have hx2 : ((get_raster_bounds s).xMax - s.gt0) / s.gt1 = ((s.xsize : ℕ) : ℚ) := by
    show (s.gt0 + s.gt1 * s.xsize - s.gt0) / s.gt1 = _
    rw [add_sub_cancel_left]
    exact mul_div_cancel_left₀ _ hg1
  have hy1 : ((get_raster_bounds s).yMin - s.gt3) / s.gt5 = ((s.ysize : ℕ) : ℚ) := by
    show (s.gt3 + s.gt5 * s.ysize - s.gt3) / s.gt5 = _
    rw [add_sub_cancel_left]
    exact mul_div_cancel_left₀ _ hg5
  simp only [pixel_bounds_from_polygon, point_to_pixel_coordinates,
    rectIntersection_self, hx1, hx2, hy1, hy2, Int.floor_zero, Int.floor_natCast]
  split_ifs with h1 h2 h2
  · exact absurd h1 (by omega)
  · exact absurd h1 (by omega)
  · rfl
  · exact absurd (by omega : ((s.ysize : ℤ) ≥ 0)) h2

/-- Claim C5: mosaicking two identical copies of a raster that contains no
nodata pixel reproduces that raster exactly: the output grid matches the
input's and every in-range pixel value equals the input's, because each
source's non-nodata pixels overwrite the destination with the same
values. -/
theorem mosaic_idempotent (r : Raster) (nodata : ℤ)
    (hres : 0 < r.gt1) (hneg : r.gt5 < 0)
    (hxs : 0 < r.xsize) (hys : 0 < r.ysize)
    (hnd : ∀ b y x, b < r.bands → y < r.ysize → x < r.xsize →
      r.buf b y x ≠ nodata) :
    ∃ out : Raster, mosaic_images [r, r] nodata = .ok out ∧
      out.gt0 = r.gt0 ∧ out.gt1 = r.gt1 ∧ out.gt3 = r.gt3 ∧ out.gt5 = r.gt5 ∧
      out.xsize = r.xsize ∧ out.ysize = r.ysize ∧ out.bands = r.bands ∧
      ∀ b y x, b < r.bands → y < r.ysize → x < r.xsize →
        out.buf b y x = r.buf b y x := by
  have hg1 : r.gt1 ≠ 0 := ne_of_gt hres
  have hg5m : r.gt5 * (-1) ≠ 0 := by
    intro h
    exact absurd (by linarith : r.gt5 = 0) (ne_of_lt hneg)
  have hcomb : multiple_union (List.map get_raster_bounds [r, r])
      = get_raster_bounds r := by
    simp [multiple_union, rectUnion_self]
  have hxsize : (create_new_image_from_polygon (get_raster_bounds r) r.gt1
      (r.gt5 * (-1)) r.bands).xsize = r.xsize := by
    show (pyInt (((get_raster_bounds r).xMax - (get_raster_bounds r).xMin)
      / r.gt1)).toNat = r.xsize
    have h1 : (get_raster_bounds r).xMax - (get_raster_bounds r).xMin
        = r.gt1 * ((r.xsize : ℕ) : ℚ) := by
      simp [get_raster_bounds]
    rw [h1, mul_div_cancel_left₀ _ hg1]
    unfold pyInt
    rw [if_pos (Nat.cast_nonneg _), Int.floor_natCast, Int.toNat_natCast]
  have hysize : (create_new_image_from_polygon (get_raster_bounds r) r.gt1
      (r.gt5 * (-1)) r.bands).ysize = r.ysize := by
    show (pyInt (((get_raster_bounds r).yMax - (get_raster_bounds r).yMin)
      / (r.gt5 * (-1)))).toNat = r.ysize
    have h2 : (get_raster_bounds r).yMax - (get_raster_bounds r).yMin
        = (r.gt5 * (-1)) * ((r.ysize : ℕ) : ℚ) := by
      simp [get_raster_bounds]
    rw [h2, mul_div_cancel_left₀ _ hg5m]
    unfold pyInt
    rw [if_pos (Nat.cast_nonneg _), Int.floor_natCast, Int.toNat_natCast]
  have hgt5 : (create_new_image_from_polygon (get_raster_bounds r) r.gt1
      (r.gt5 * (-1)) r.bands).gt5 = r.gt5 := by
    show -(r.gt5 * (-1)) = r.gt5
    ring
  have hout0 : create_new_image_from_polygon (get_raster_bounds r) r.gt1
      (r.gt5 * (-1)) r.bands = { r with buf := fun _ _ _ => 0 } :=
    raster_eq_of_fields rfl rfl rfl hgt5 hxsize hysize rfl rfl
  have hm : mosaic_images [r, r] nodata
      = .ok ([r, r].foldl (mosaic_step nodata)
          (create_new_image_from_polygon
            (multiple_union (List.map get_raster_bounds [r, r])) r.gt1
            (r.gt5 * (-1)) r.bands)) := rfl
  rw [hcomb, hout0] at hm
  simp only [List.foldl_cons, List.foldl_nil] at hm
  have hwinf : ∀ f : ℕ → ℕ → ℕ → ℤ,
      pixel_bounds_from_polygon { r with buf := f } (get_raster_bounds r)
        = Window.mk 0 (r.xsize : ℤ) 0 (r.ysize : ℤ) := by
    intro f
    exact pixel_bounds_self { r with buf := f } hres hneg hxs
  have hval : ∀ (f : ℕ → ℕ → ℕ → ℤ) b y x, b < r.bands → y < r.ysize →
      x < r.xsize →
      (mosaic_step nodata { r with buf := f } r).buf b y x = r.buf b y x := by
    intro f b y x hb hy hx
    simp only [mosaic_step, hwinf f]
    rw [if_pos ⟨hb, Nat.zero_le y, by simpa using hy, Nat.zero_le x,
      by simpa using hx, by simpa using hnd b y x hb hy hx⟩]
    simp
  refine ⟨_, hm, rfl, rfl, rfl, rfl, rfl, rfl, rfl, ?_⟩
  intro b y x hb hy hx
  exact hval (mosaic_step nodata { r with buf := fun _ _ _ => 0 } r).buf
    b y x hb hy hx

/-- A 1 by 1 single-band raster with pixel value 7 for the C5 witness. -/
def mosaicR : Raster :=
  { gt0 := 0, gt1 := 1, gt3 := 0, gt5 := -1,
    xsize := 1, ysize := 1, bands := 1, buf := fun _ _ _ => 7 }

/-- Witness for C5 at a concrete raster with nodata 0 and no nodata pixels. -/
theorem mosaic_idempotent_witness :
    ∃ out : Raster, mosaic_images [mosaicR, mosaicR] 0 = .ok out ∧
      out.gt0 = mosaicR.gt0 ∧ out.gt1 = mosaicR.gt1 ∧ out.gt3 = mosaicR.gt3 ∧
      out.gt5 = mosaicR.gt5 ∧ out.xsize = mosaicR.xsize ∧
      out.ysize = mosaicR.ysize ∧ out.bands = mosaicR.bands ∧
      ∀ b y x, b < mosaicR.bands → y < mosaicR.ysize → x < mosaicR.xsize →
        out.buf b y x = mosaicR.buf b y x :=
  mosaic_idempotent mosaicR 0 (by norm_num [mosaicR]) (by norm_num [mosaicR])
    (by norm_num [mosaicR]) (by norm_num [mosaicR])
    (by intro b y x _ _ _; norm_num [mosaicR])

end Pyeo
